import Mathlib

/-!
Shallow embedding of the core of the `swedish-ai` pipeline
(query generation, capture storage, credibility filter, verifier,
keyword feedback loop), translated from the Python sources in
`src/phases/`.  Strings are modelled as Lean `String`/`List Char`,
Python floats as `ℚ`, and SQLite rows as Lean structures; the
database is a list of rows and each SQL statement becomes a pure
function on that list.
-/

namespace SwedishAI

/-! ## Python string primitives

Models of the Python `str` operations used by the sources:
`str.lower` (restricted to ASCII plus the Swedish letters Å, Ä, Ö,
the only alphabets appearing in this code base), `str.strip`,
`re.sub(r'\s+', ' ', -)` and the `in` substring test. -/

/-- Python `str.lower` on one character, for ASCII and Swedish letters. -/
def pyLower (c : Char) : Char :=
  if 'A' ≤ c ∧ c ≤ 'Z' then Char.ofNat (c.toNat + 32)
  else if c = 'Å' then 'å'
  else if c = 'Ä' then 'ä'
  else if c = 'Ö' then 'ö'
  else c

/-- Python `\s` / `str.strip` whitespace class (the ASCII part). -/
def pyIsSpace (c : Char) : Bool :=
  c = ' ' || c = '\t' || c = '\n' || c = '\r' || c = '\x0b' || c = '\x0c'

/-- Python `str.strip()`: drop leading and trailing whitespace. -/
def pyStrip (l : List Char) : List Char :=
  ((l.dropWhile pyIsSpace).reverse.dropWhile pyIsSpace).reverse

/-- Python `re.sub(r'\s+', ' ', s)`: collapse every whitespace run to one space. -/
def collapseWs : List Char → List Char
  | [] => []
  | [c] => if pyIsSpace c then [' '] else [c]
  | c1 :: c2 :: rest =>
    if pyIsSpace c1 && pyIsSpace c2 then collapseWs (c2 :: rest)
    else (if pyIsSpace c1 then ' ' else c1) :: collapseWs (c2 :: rest)

/-- Python `needle in hay` substring test. -/
def isSubstring (needle : List Char) : List Char → Bool
  | [] => needle.isEmpty
  | c :: rest => needle.isPrefixOf (c :: rest) || isSubstring needle rest

/-- The quote/source normalization of `fuzzy_match`
(`re.sub(r'\s+', ' ', s.strip().lower())`). -/
def pyNormalize (s : String) : List Char :=
  collapseWs ((pyStrip s.data).map pyLower)

/-! ## difflib.SequenceMatcher

Model of CPython `difflib.SequenceMatcher(None, a, b).ratio()` for
inputs below the autojunk threshold (second sequence shorter than 200
characters — every call in this code base stays far below it, so the
junk sets are empty).  `runAt a b alo blo i j` is the value the
`find_longest_match` dynamic program stores at cell `(i, j)`: the
length of the common suffix of `a[alo..i]` and `b[blo..j]`. -/

/-- One row of the `find_longest_match` dynamic program (`newj2len`):
`row[j] = prevShifted[j] + 1` when `b[j]` matches the current `a[i]` and
`j` lies in `[blo, bhi)`, else `0`.  `prevShifted` is the previous row
prefixed with `0`, so its `j`-th entry is `j2len.get(j-1, 0)`. -/
def flmNewRow (ai : Char) (blo bhi : Nat) : Nat → List Char → List Nat → List Nat
  | j, c :: cs, p :: ps =>
    (if blo ≤ j ∧ j < bhi ∧ c = ai then p + 1 else 0) ::
      flmNewRow ai blo bhi (j + 1) cs ps
  | _, _, _ => []

/-- The best-block update of one row: scanning `j` ascending, replace the
best block only when strictly longer (`k > bestsize`), so the first
maximal block in scan order wins, exactly as in difflib. -/
def bestInRow (i : Nat) : Nat → List Nat → Nat × Nat × Nat → Nat × Nat × Nat
  | j, k :: ks, best =>
    bestInRow i (j + 1) ks (if k > best.2.2 then (i + 1 - k, j + 1 - k, k) else best)
  | _, [], best => best

/-- The row loop of `find_longest_match`: fold the DP rows for
`i = alo, …, ahi-1` (given as `(index, character)` pairs). -/
def flmRows (b : List Char) (blo bhi : Nat) :
    List (Nat × Char) → List Nat → Nat × Nat × Nat → Nat × Nat × Nat
  | [], _, best => best
  | (i, ai) :: rest, prev, best =>
    let row := flmNewRow ai blo bhi 0 b (0 :: prev)
    flmRows b blo bhi rest row (bestInRow i 0 row best)

/-- `SequenceMatcher.find_longest_match` on the slice
`a[alo:ahi]` / `b[blo:bhi]` (empty junk sets, so the junk-extension
loops at the end of the Python function are no-ops): returns `(i, j, size)`. -/
def find_longest_match (a b : List Char) (alo ahi blo bhi : Nat) : Nat × Nat × Nat :=
  flmRows b blo bhi
    ((List.range' alo (ahi - alo)).zip ((a.drop alo).take (ahi - alo)))
    (List.replicate b.length 0) (alo, blo, 0)

/-- Total size of the matching blocks (`get_matching_blocks` recursion).
The fuel only bounds the recursion depth; `a.length + 1` always suffices
because `ahi - alo` strictly decreases. -/
def matchesAux (a b : List Char) : Nat → Nat → Nat → Nat → Nat → Nat
  | 0, _, _, _, _ => 0
  | fuel + 1, alo, ahi, blo, bhi =>
    let r := find_longest_match a b alo ahi blo bhi
    if r.2.2 = 0 then 0
    else
      r.2.2 +
        (if alo < r.1 ∧ blo < r.2.1 then matchesAux a b fuel alo r.1 blo r.2.1 else 0) +
        (if r.1 + r.2.2 < ahi ∧ r.2.1 + r.2.2 < bhi then
          matchesAux a b fuel (r.1 + r.2.2) ahi (r.2.1 + r.2.2) bhi else 0)

/-- `sum(size for block in get_matching_blocks())`. -/
def smMatches (a b : List Char) : Nat :=
  matchesAux a b (a.length + 1) 0 a.length 0 b.length

/-- `SequenceMatcher(None, a, b).ratio() = 2*M/T` (`1.0` on two empty inputs). -/
def seqRatio (a b : List Char) : ℚ :=
  if a.length + b.length = 0 then 1
  else (2 * smMatches a b : ℚ) / (a.length + b.length)

/-! ## phase3_verify.fuzzy_match -/

/-- Start offsets of the sliding windows:
Python `range(0, len(source) - quote_len + 1, step)`. -/
def windowStarts (srcLen qLen step : Nat) : List Nat :=
  (List.range ((srcLen + 1 - qLen + step - 1) / step)).map (· * step)

/-- The window of the source text scanned at offset `i`
(`source_clean[i : i + quote_len + 50]`). -/
def windowAt (sc : List Char) (i qLen : Nat) : List Char :=
  (sc.drop i).take (qLen + 50)

/-- The similarity computed for the window at offset `i`:
`SequenceMatcher(None, quote_clean, window).ratio()`. -/
def windowRatio (qc sc : List Char) (i : Nat) : ℚ :=
  seqRatio qc (windowAt sc i qc.length)

/-- The sliding-window loop of `fuzzy_match`: returns `(some r, best)` when a
window reaches the threshold (the early `return True, ratio`), else
`(none, best)` with the best ratio seen. -/
def loopWindows (qc sc : List Char) (thr : ℚ) : List Nat → ℚ → Option ℚ × ℚ
  | [], best => (none, best)
  | i :: rest, best =>
    let r := windowRatio qc sc i
    let best2 := if r > best then r else best
    if r ≥ thr then (some r, best2)
    else loopWindows qc sc thr rest best2

/-- `phase3_verify.fuzzy_match(quote, source_text, threshold)`:
returns `(passed, similarity)`. -/
def fuzzy_match (quote source : String) (thr : ℚ) : Bool × ℚ :=
  if quote.data = [] ∨ source.data = [] then (false, 0)
  else
    let qc := pyNormalize quote
    let sc := pyNormalize source
    if isSubstring qc sc then (true, 1)
    else
      let step := max 1 (qc.length / 4)
      match loopWindows qc sc thr (windowStarts sc.length qc.length step) 0 with
      | (some r, _) => (true, r)
      | (none, best) =>
        if qc.length > 50 then
          let half := qc.length / 2
          let firstFound := isSubstring (qc.take half) sc
          let secondFound := isSubstring (qc.drop half) sc
          if firstFound && secondFound then (true, 17/20)
          else if firstFound || secondFound then (true, 7/10)
          else (decide (best ≥ thr), best)
        else (decide (best ≥ thr), best)

/-! ## phase3_verify.run_verification: status fields -/

inductive QuoteCheck | passed | failed | partialMatch
deriving DecidableEq, Repr, Fintype

inductive UrlCheck | live | redirect | dead | timeout
deriving DecidableEq, Repr, Fintype

inductive FinalStatus | verified | rejected | weak
deriving DecidableEq, Repr, Fintype

/-- The quote check of `run_verification` (step 1): `fuzzy_match` at the
default threshold 0.65, then
`"passed" if quote_passed else ("partial" if quote_sim > 0.5 else "failed")`.
Returns `(quote_status, quote_sim)`. -/
def quoteCheckOf (quote source : String) : QuoteCheck × ℚ :=
  let r := fuzzy_match quote source (13/20)
  (if r.1 then .passed else if r.2 > 1/2 then .partialMatch else .failed, r.2)

/-- The final-status decision of `run_verification`. -/
def final_status (q : QuoteCheck) (u : UrlCheck) : FinalStatus :=
  if q = .failed then .rejected
  else if u = .dead then .rejected
  else if q = .partialMatch ∨ u = .timeout then .weak
  else .verified

/-! ## phase3_verify.check_duplicate

`extracted_signals` rows are modelled with `Option String` columns
(SQL `NULL` is `none`), `created_at` as an integer timestamp in days,
and the join against `verified_signals` as a `final_status` attached to
each prior row.  SQLite's `col = ?` is false on `NULL`, and Python's
`a or b` falls through on the empty string, which the models below keep. -/

structure ExtractedSignal where
  id : Nat
  person_name : Option String
  person_company : Option String
  company_name : Option String
  original_quote : Option String
  created_at : ℤ
deriving DecidableEq, Repr

/-- A prior `extracted_signals` row joined to its `verified_signals` row. -/
structure PriorRecord where
  signal : ExtractedSignal
  final_status : FinalStatus
deriving DecidableEq, Repr

/-- Python truthiness of an optional string (`None` and `""` are falsy). -/
def pyTruthy : Option String → Bool
  | none => false
  | some s => s ≠ ""

/-- Python `a or b` on optional strings. -/
def pyOrStr (a b : Option String) : Option String :=
  if pyTruthy a then a else b

/-- The dynamically built SQL `WHERE` clause of `check_duplicate`: a
person condition is added only when the candidate has a truthy person
name, a company condition only when it has a truthy company; the
conditions are joined with `AND`. -/
def whereMatch (person company : Option String) (row : ExtractedSignal) : Bool :=
  (if pyTruthy person then row.person_name == person else true) &&
  (if pyTruthy company then
    (row.company_name == company || row.person_company == company) else true)

/-- `es.created_at >= datetime('now', '-7 days')`. -/
def inWindow (now : ℤ) (row : ExtractedSignal) : Bool :=
  now - 7 ≤ row.created_at

/-- Quote comparison of `check_duplicate`:
`SequenceMatcher(None, quote.lower(), existing_quote.lower()).ratio()`
(plain lowering, no whitespace normalization). -/
def dupRatio (q e : String) : ℚ :=
  seqRatio (q.data.map pyLower) (e.data.map pyLower)

/-- The row loop of `check_duplicate`: return the first prior row whose
quote is similar beyond 0.7 (both quotes must be non-empty). -/
def findDup (quote : String) : List PriorRecord → Bool × Option Nat
  | [] => (false, none)
  | r :: rest =>
    let existing := r.signal.original_quote.getD ""
    if quote ≠ "" ∧ existing ≠ "" ∧ dupRatio quote existing > 7/10 then
      (true, some r.signal.id)
    else findDup quote rest

/-- `phase3_verify.check_duplicate(conn, signal)`: `db` is the list of
prior `extracted_signals` rows joined to their verification rows, in
table order. -/
def check_duplicate (now : ℤ) (db : List PriorRecord)
    (sig : ExtractedSignal) : Bool × Option Nat :=
  let person := sig.person_name
  let company := pyOrStr sig.company_name sig.person_company
  if ¬pyTruthy person ∧ ¬pyTruthy company then (false, none)
  else
    let rows := db.filter fun r =>
      whereMatch person company r.signal && r.final_status == FinalStatus.verified &&
        inWindow now r.signal
    findDup (sig.original_quote.getD "") rows

/-! ## phase3_verify.run_verification: the stored row

The verification row assembled at the end of the per-signal loop.  The
network-dependent inputs (URL probe result, duplicate-check output) are
parameters; the company-enrichment fields are external I/O and carry no
logic, so they are omitted. -/

structure VerifiedSignalRow where
  quote_check : QuoteCheck
  quote_similarity : ℚ
  url_check : UrlCheck
  is_duplicate : Bool
  duplicate_of : Option Nat
  final_status : FinalStatus
deriving DecidableEq, Repr

/-- The row `run_verification` inserts for one signal: quote check from
`fuzzy_match`, the given URL status, the given duplicate flag, and the
final status from the fixed priority chain. -/
def verificationRecord (quote source : String) (urlStatus : UrlCheck)
    (dup : Bool × Option Nat) : VerifiedSignalRow :=
  let qc := quoteCheckOf quote source
  { quote_check := qc.1
    quote_similarity := qc.2
    url_check := urlStatus
    is_duplicate := dup.1
    duplicate_of := dup.2
    final_status := final_status qc.1 urlStatus }

/-! ## keyword_evolution.update_keyword_stats

One `keyword_history` row; `hit_rate` (SQL `REAL`) is modelled as `ℚ`.
The single SQL `UPDATE` evaluates every right-hand side against the
pre-update row, so `hit_rate` becomes
`(times_produced_signal + d) / (times_used + 1)` over the old counters. -/

structure KeywordRow where
  times_used : Nat
  times_produced_signal : Nat
  hit_rate : ℚ
deriving DecidableEq, Repr

/-- A fresh `keyword_history` row (`DEFAULT 0`, `DEFAULT 0`, `DEFAULT 0.0`). -/
def initKeywordRow : KeywordRow := ⟨0, 0, 0⟩

/-- `keyword_evolution.update_keyword_stats`, restricted to one keyword row
matched by the `WHERE` clause: the single atomic read-modify-write step. -/
def update_keyword_stats (row : KeywordRow) (produced_signal : Bool) : KeywordRow :=
  let d : Nat := if produced_signal then 1 else 0
  { times_used := row.times_used + 1
    times_produced_signal := row.times_produced_signal + d
    hit_rate := ((row.times_produced_signal + d : ℕ) : ℚ) / ((row.times_used + 1 : ℕ) : ℚ) }

/-- A row's state after a sequence of uses (`true` = produced a signal),
starting from a fresh row. -/
def runKeywordUpdates (uses : List Bool) : KeywordRow :=
  uses.foldl update_keyword_stats initKeywordRow

/-! ## keyword_evolution.update_keywords_file

The two discovery pools of `keywords.json`.  File I/O and the timestamped
backup are outside the model; the function below is the pure
pool-to-pool transformation. -/

structure DiscoveryPools where
  from_signals : List String
  adjacent_terms : List String
deriving DecidableEq, Repr

/-- The merge loop of `update_keywords_file`: append each suggested term
not already present (later iterations see earlier appends). -/
def addNewKeywords (fs : List String) : List String → List String
  | [] => fs
  | t :: rest => addNewKeywords (if t ∈ fs then fs else fs ++ [t]) rest

/-- `keyword_evolution.update_keywords_file(new_keywords, retire)` as a
transformation of the discovery pools: merge the suggested terms into
`from_signals` (skip if present), then remove retired terms from
`adjacent_terms` and from `from_signals`. -/
def update_keywords_file (pools : DiscoveryPools)
    (new_keywords retire : List String) : DiscoveryPools :=
  let fs := addNewKeywords pools.from_signals new_keywords
  let adjacent := pools.adjacent_terms.filter fun t => decide (t ∉ retire)
  let fs2 := fs.filter fun t => decide (t ∉ retire)
  { from_signals := fs2, adjacent_terms := adjacent }

/-! ## phase2_5_credibility.deterministic_credibility_check

The sponsorship regexes use only literals, `\s+`, `\s*`, `.*` and one
optional literal group, so they are embedded as token lists matched by a
small backtracking matcher (`re.IGNORECASE` is modelled by lowering the
markup once; `.` does not match a newline, as in Python without
`re.DOTALL`).  The matcher recurses on a fuel that strictly dominates
`tokens + input` so that it is structural and computable. -/

inductive ReTok
  | lit (c : Char)
  | wsStar
  | wsPlus
  | dotStar
  | optStr (c : Char) (cs : List Char)
deriving DecidableEq, Repr

/-- A literal character run. -/
def lits (s : String) : List ReTok := s.data.map ReTok.lit

/-- Match the token list against a prefix of `s` (Python `re.match`
semantics at one position; alternatives are tried disjunctively, which
decides the same language as Python's backtracking).  Any fuel of at
least `toks.length + s.length + 1` gives the untruncated answer, since
every recursive call shrinks `toks.length + s.length`. -/
def reMatchFuel : Nat → List ReTok → List Char → Bool
  | 0, _, _ => false
  | fuel + 1, toks, s =>
    match toks, s with
    | [], _ => true
    | .lit _ :: _, [] => false
    | .lit c :: ts, c2 :: rest => c2 = c && reMatchFuel fuel ts rest
    | .wsStar :: ts, s =>
      reMatchFuel fuel ts s ||
        (match s with
         | [] => false
         | c :: rest => pyIsSpace c && reMatchFuel fuel (.wsStar :: ts) rest)
    | .wsPlus :: _, [] => false
    | .wsPlus :: ts, c :: rest => pyIsSpace c && reMatchFuel fuel (.wsStar :: ts) rest
    | .dotStar :: ts, s =>
      reMatchFuel fuel ts s ||
        (match s with
         | [] => false
         | c :: rest => decide (c ≠ '\n') && reMatchFuel fuel (.dotStar :: ts) rest)
    | .optStr c cs :: ts, s =>
      reMatchFuel fuel ts s ||
        (match s with
         | [] => false
         | c2 :: rest => c2 = c && cs.isPrefixOf rest &&
             reMatchFuel fuel ts (rest.drop cs.length))

/-- `re.search`: try the match at every start position. -/
def reSearch (toks : List ReTok) : List Char → Bool
  | [] => reMatchFuel (toks.length + 1) toks []
  | c :: rest =>
    reMatchFuel (toks.length + (c :: rest).length + 1) toks (c :: rest) ||
      reSearch toks rest

/-- The `sponsored_patterns` list, each with its Python source text
(used verbatim in the recorded flag). -/
def sponsored_patterns : List (String × List ReTok) :=
  [("brand\\s*studio", lits "brand" ++ [.wsStar] ++ lits "studio"),
   ("i\\s+samarbete\\s+med",
     lits "i" ++ [.wsPlus] ++ lits "samarbete" ++ [.wsPlus] ++ lits "med"),
   ("annons(?:ering)?", lits "annons" ++ [.optStr 'e' "ring".data]),
   ("sponsored", lits "sponsored"),
   ("paid\\s+partnership", lits "paid" ++ [.wsPlus] ++ lits "partnership"),
   ("in\\s+cooperation\\s+with",
     lits "in" ++ [.wsPlus] ++ lits "cooperation" ++ [.wsPlus] ++ lits "with"),
   ("producerad\\s+av.*i\\s+samarbete",
     lits "producerad" ++ [.wsPlus] ++ lits "av" ++ [.dotStar] ++
       lits "i" ++ [.wsPlus] ++ lits "samarbete"),
   ("partnership\\s+content", lits "partnership" ++ [.wsPlus] ++ lits "content"),
   ("native\\s+advertising", lits "native" ++ [.wsPlus] ++ lits "advertising"),
   ("betalt\\s+innehåll", lits "betalt" ++ [.wsPlus] ++ lits "innehåll"),
   ("reklam", lits "reklam")]

/-- The `url_red_flags` list. -/
def url_red_flags : List String :=
  ["/brandstudio/", "/annons/", "/sponsored/", "/partners/", "/native-ads/", "/reklam/"]

/-- Python `str.lower` on a whole string. -/
def lowerString (s : String) : String := ⟨s.data.map pyLower⟩

def nordic_tlds : List String := [".se", ".dk", ".no", ".fi", ".is"]

def nordic_domains : List String :=
  ["sweden", "sverige", "denmark", "danmark", "norway", "norge",
   "finland", "suomi", "iceland", "ísland"]

def nordic_linkedin : List String :=
  ["se.linkedin", "dk.linkedin", "no.linkedin", "fi.linkedin", "is.linkedin"]

def nordic_subs : List String :=
  ["/sweden", "/norge", "/denmark", "/suomi", "/iceland", "/foretagande"]

structure CredibilityResult where
  auto_reject : Bool
  red_flags : List String
  is_nordic : Bool
deriving DecidableEq, Repr

/-- `phase2_5_credibility.deterministic_credibility_check(url, html)`
(the scores it also returns are constant functions of `auto_reject` and
carry no logic).  Flags accumulate in source order: sponsorship markers,
then URL markers, then the geography note. -/
def deterministic_credibility_check (url html : String) : CredibilityResult :=
  let htmlLower := html.data.map pyLower
  let sponsoredHits := sponsored_patterns.filter fun p => reSearch p.2 htmlLower
  let urlHits := url_red_flags.filter fun f => isSubstring f.data (lowerString url).data
  let red1 := sponsoredHits.map (fun p => "sponsored_marker: " ++ p.1) ++
    urlHits.map (fun f => "url_contains: " ++ f)
  let autoReject := !sponsoredHits.isEmpty || !urlHits.isEmpty
  let n1 := nordic_tlds.any fun t => isSubstring t.data url.data
  let n2 := n1 || nordic_domains.any fun d => isSubstring d.data (lowerString url).data
  let n3 :=
    if isSubstring "linkedin.com".data url.data then
      (nordic_linkedin.any fun nl => isSubstring nl.data url.data) ||
        isSubstring "?tl=sv".data url.data || isSubstring "&tl=sv".data url.data
    else n2
  let isNordic :=
    if isSubstring "reddit.com".data url.data then
      nordic_subs.any fun sub => isSubstring sub.data (lowerString url).data
    else n3
  { auto_reject := autoReject
    red_flags := if isNordic then red1 else red1 ++ ["non_nordic_geography"]
    is_nordic := isNordic }

inductive Verdict | reject | review | accept
deriving DecidableEq, Repr

/-- The verdict assignment of `run_credibility_check` for one signal. -/
def run_credibility_verdict (url html : String) : Verdict :=
  let check := deterministic_credibility_check url html
  if check.auto_reject then .reject
  else if !check.is_nordic then .review
  else .accept

/-! ## database.make_source_hash / store_crawl_result

`make_source_hash` is `hashlib.sha256(f"{url}|{content[:500]}".encode())
.hexdigest()[:16]`.  SHA-256 is implemented below over `Nat` with 32-bit
arithmetic taken modulo `2^32`; the 64-hex-character digest is a 256-bit
`Nat` (zero-padded, as `hexdigest` is), so its first 16 hex characters
are its top 64 bits, `digest >>> 192`.  `content[:500]` slices the first
500 *characters*, which are then UTF-8 encoded. -/

/-- Truncation to a 32-bit word. -/
def w32 (n : Nat) : Nat := n % 4294967296

/-- 32-bit right rotation. -/
def rotr (n x : Nat) : Nat := w32 ((x >>> n) ||| (x <<< (32 - n)))

def shaCh (x y z : Nat) : Nat := (x &&& y) ^^^ ((x ^^^ 0xFFFFFFFF) &&& z)

def shaMaj (x y z : Nat) : Nat := (x &&& y) ^^^ (x &&& z) ^^^ (y &&& z)

def bsig0 (x : Nat) : Nat := rotr 2 x ^^^ rotr 13 x ^^^ rotr 22 x

def bsig1 (x : Nat) : Nat := rotr 6 x ^^^ rotr 11 x ^^^ rotr 25 x

def ssig0 (x : Nat) : Nat := rotr 7 x ^^^ rotr 18 x ^^^ (x >>> 3)

def ssig1 (x : Nat) : Nat := rotr 17 x ^^^ rotr 19 x ^^^ (x >>> 10)

/-- The 64 SHA-256 round constants. -/
def shaK : List Nat :=
  [1116352408, 1899447441, 3049323471, 3921009573,
   961987163, 1508970993, 2453635748, 2870763221,
   3624381080, 310598401, 607225278, 1426881987,
   1925078388, 2162078206, 2614888103, 3248222580,
   3835390401, 4022224774, 264347078, 604807628,
   770255983, 1249150122, 1555081692, 1996064986,
   2554220882, 2821834349, 2952996808, 3210313671,
   3336571891, 3584528711, 113926993, 338241895,
   666307205, 773529912, 1294757372, 1396182291,
   1695183700, 1986661051, 2177026350, 2456956037,
   2730485921, 2820302411, 3259730800, 3345764771,
   3516065817, 3600352804, 4094571909, 275423344,
   430227734, 506948616, 659060556, 883997877,
   958139571, 1322822218, 1537002063, 1747873779,
   1955562222, 2024104815, 2227730452, 2361852424,
   2428436474, 2756734187, 3204031479, 3329325298]

/-- UTF-8 encoding of one character (Python `str.encode()`). -/
def utf8Bytes (c : Char) : List Nat :=
  let n := c.toNat
  if n < 0x80 then [n]
  else if n < 0x800 then
    [0xC0 ||| (n >>> 6), 0x80 ||| (n &&& 0x3F)]
  else if n < 0x10000 then
    [0xE0 ||| (n >>> 12), 0x80 ||| ((n >>> 6) &&& 0x3F), 0x80 ||| (n &&& 0x3F)]
  else
    [0xF0 ||| (n >>> 18), 0x80 ||| ((n >>> 12) &&& 0x3F),
     0x80 ||| ((n >>> 6) &&& 0x3F), 0x80 ||| (n &&& 0x3F)]

/-- UTF-8 encoding of a string, as a byte list. -/
def strBytes (s : String) : List Nat := (s.data.map utf8Bytes).flatten

/-- Big-endian byte decomposition of `n` into `count` bytes. -/
def beBytes (n count : Nat) : List Nat :=
  (List.range count).map fun i => (n >>> (8 * (count - 1 - i))) &&& 0xFF

/-- SHA-256 message padding: `0x80`, zeros to 56 mod 64, then the bit
length in 8 big-endian bytes. -/
def sha256Pad (msg : List Nat) : List Nat :=
  let L := msg.length
  let k := (64 + 56 - ((L + 1) % 64)) % 64
  msg ++ [0x80] ++ List.replicate k 0 ++ beBytes (8 * L) 8

/-- Big-endian 32-bit words from a byte list. -/
def toWords : List Nat → List Nat
  | b0 :: b1 :: b2 :: b3 :: rest =>
    ((((b0 <<< 8) ||| b1) <<< 8 ||| b2) <<< 8 ||| b3) :: toWords rest
  | _ => []

/-- 16-word blocks (padding guarantees a multiple of 16 words). -/
def toBlocks : List Nat → List (List Nat)
  | w0 :: w1 :: w2 :: w3 :: w4 :: w5 :: w6 :: w7 ::
      w8 :: w9 :: w10 :: w11 :: w12 :: w13 :: w14 :: w15 :: rest =>
    [w0, w1, w2, w3, w4, w5, w6, w7, w8, w9, w10, w11, w12, w13, w14, w15] ::
      toBlocks rest
  | _ => []

/-- The 48 extension words of the message schedule, carrying a sliding
window of the last 16 words. -/
def scheduleAux : Nat → List Nat → List Nat
  | 0, _ => []
  | n + 1, w0 :: w1 :: w2 :: w3 :: w4 :: w5 :: w6 :: w7 ::
      w8 :: w9 :: w10 :: w11 :: w12 :: w13 :: w14 :: w15 :: _ =>
    let nw := w32 (ssig1 w14 + w9 + ssig0 w1 + w0)
    nw :: scheduleAux n [w1, w2, w3, w4, w5, w6, w7, w8,
      w9, w10, w11, w12, w13, w14, w15, nw]
  | _ + 1, _ => []

structure Sha256State where
  a : Nat
  b : Nat
  c : Nat
  d : Nat
  e : Nat
  f : Nat
  g : Nat
  h : Nat
deriving DecidableEq, Repr

/-- One SHA-256 compression round. -/
def shaRound (st : Sha256State) (kw : Nat × Nat) : Sha256State :=
  let t1 := w32 (st.h + bsig1 st.e + shaCh st.e st.f st.g + kw.1 + kw.2)
  let t2 := w32 (bsig0 st.a + shaMaj st.a st.b st.c)
  ⟨w32 (t1 + t2), st.a, st.b, st.c, w32 (st.d + t1), st.e, st.f, st.g⟩

/-- Compress one 16-word block into the running state. -/
def compressBlock (st0 : Sha256State) (block : List Nat) : Sha256State :=
  let ws := block ++ scheduleAux 48 block
  let st := (shaK.zip ws).foldl shaRound st0
  ⟨w32 (st0.a + st.a), w32 (st0.b + st.b), w32 (st0.c + st.c), w32 (st0.d + st.d),
   w32 (st0.e + st.e), w32 (st0.f + st.f), w32 (st0.g + st.g), w32 (st0.h + st.h)⟩

def sha256Init : Sha256State :=
  ⟨1779033703, 3144134277, 1013904242, 2773480762,
   1359893119, 2600822924, 528734635, 1541459225⟩

/-- The SHA-256 digest of a byte list, as a 256-bit natural number. -/
def sha256Digest (msg : List Nat) : Nat :=
  let st := (toBlocks (toWords (sha256Pad msg))).foldl compressBlock sha256Init
  [st.b, st.c, st.d, st.e, st.f, st.g, st.h].foldl
    (fun acc w => (acc <<< 32) ||| w) st.a

/-- `database.make_source_hash(url, content)`: the first 16 hex characters
of the digest of `f"{url}|{content[:500]}"`, i.e. its top 64 bits. -/
def make_source_hash (url content : String) : Nat :=
  sha256Digest (strBytes ⟨url.data ++ '|' :: content.data.take 500⟩) >>> 192

/-- One `raw_crawl` row (columns beyond the hash are stored payload). -/
structure CrawlRow where
  source_hash : Nat
  source_url : String
  source_domain : String
  page_title : String
  raw_text : String
  raw_html : String
  query_used : String
  keyword_type : String
  http_status : Nat
deriving DecidableEq, Repr

/-- `database.store_crawl_result`: insert the capture unless its content
hash is already present (the `UNIQUE` constraint raises `IntegrityError`,
caught and answered with `None`, leaving the table unchanged).  Returns
the new table and the returned hash. -/
def store_crawl_result (db : List CrawlRow) (url domain title raw_text raw_html
    query keyword_type : String) (http_status : Nat) : List CrawlRow × Option Nat :=
  let h := make_source_hash url raw_text
  if db.any (fun r => r.source_hash == h) then (db, none)
  else
    let row : CrawlRow :=
      { source_hash := h, source_url := url, source_domain := domain,
        page_title := title, raw_text := raw_text, raw_html := raw_html,
        query_used := query, keyword_type := keyword_type,
        http_status := http_status }
    (db ++ [row], some h)

/-! ## query_builder

`random.choice`, `random.sample` and `random.shuffle` are effects of the
PRNG; they enter the model as explicit parameters (`CoreRng`, `DiscRng`),
so every theorem quantifies over all draws the PRNG could make, and a
concrete instantiation replays one particular run. -/

structure Query where
  query : String
  qtype : String
  site : String
  include_domains : Option (List String)
  keywords_used : List String
deriving DecidableEq, Repr

/-- The `SITE_DOMAINS` dict (`dict.get`: `none` when the key is absent). -/
def SITE_DOMAINS : String → Option (List String) := fun k =>
  if k = "linkedin" then some ["linkedin.com"]
  else if k = "linkedin_articles" then some ["linkedin.com"]
  else if k = "foretagarna" then some ["foretagarna.se"]
  else if k = "breakit" then some ["breakit.se"]
  else if k = "di" then some ["di.se"]
  else if k = "nyteknik" then some ["nyteknik.se"]
  else if k = "flashback" then some ["flashback.org"]
  else if k = "reddit_sweden" then some ["reddit.com"]
  else if k = "reddit_foretagande" then some ["reddit.com"]
  else if k = "general_swedish" then some []
  else if k = "nordic_business" then
    some ["breakit.se", "di.se", "nyteknik.se", "foretagarna.se"]
  else if k = "forums" then some ["reddit.com", "flashback.org"]
  else none

/-- The PRNG draws of `build_core_queries`: per-task pain sample, per-pair
site choices, per-pain task sample, and the final shuffle. -/
structure CoreRng where
  samplePain : Nat → List String
  site2 : Nat → Nat → String
  site3 : Nat → Nat → String
  sampleTasks : Nat → List String
  shuffleCore : List Query → List Query

/-- The PRNG draws of `build_discovery_queries` (`chooseBiz` picks the
index of the business-context term drawn by `random.choice(biz)`). -/
structure DiscRng where
  chooseBiz : Nat → Nat
  shuffleDisc : List Query → List Query

/-- `query_builder.build_core_queries(keywords, site_targets, count)`:
the four query patterns, shuffled, truncated to `count`. -/
def build_core_queries (pain ai biz tasks : List String) (count : Nat)
    (rng : CoreRng) : List Query :=
  let q1 := (pain.map fun p => biz.map fun b =>
    ({ query := p ++ " " ++ b ++ " Sverige", qtype := "core",
       site := "general_swedish", include_domains := none,
       keywords_used := [p, b] } : Query)).flatten
  let q2 := (tasks.enum.map fun ti =>
    (rng.samplePain ti.1).enum.map fun pi =>
      let sk := rng.site2 ti.1 pi.1
      ({ query := ti.2 ++ " " ++ pi.2 ++ " företag", qtype := "core",
         site := sk, include_domains := SITE_DOMAINS sk,
         keywords_used := [ti.2, pi.2] } : Query)).flatten
  let q3 := (ai.enum.map fun ia =>
    biz.enum.map fun ib =>
      let sk := rng.site3 ia.1 ib.1
      ({ query := ia.2 ++ " " ++ ib.2, qtype := "core",
         site := sk, include_domains := SITE_DOMAINS sk,
         keywords_used := [ia.2, ib.2] } : Query)).flatten
  let q4 := (pain.enum.map fun pi =>
    (rng.sampleTasks pi.1).map fun t =>
      ({ query := pi.2 ++ " " ++ t, qtype := "core",
         site := "forums", include_domains := SITE_DOMAINS "forums",
         keywords_used := [pi.2, t] } : Query)).flatten
  (rng.shuffleCore (q1 ++ q2 ++ q3 ++ q4)).take count

/-- One `keyword_history` performance row as `get_keyword_performance`
returns it. -/
structure Perf where
  times_used : Nat
  hit_rate : ℚ
deriving DecidableEq, Repr

/-- `performance.get(kw, {})`. -/
def perfLookup (performance : List (String × Perf)) (kw : String) : Option Perf :=
  (performance.find? fun p => p.1 == kw).map (·.2)

/-- The discovery weight: 1.5 for an unused keyword (absent or
`times_used == 0`), `1 + hit_rate` for a positive hit rate, 0.3 otherwise. -/
def kwWeight (performance : List (String × Perf)) (kw : String) : ℚ :=
  match perfLookup performance kw with
  | none => 3/2
  | some p =>
    if p.times_used = 0 then 3/2
    else if p.hit_rate > 0 then 1 + p.hit_rate
    else 3/10

/-- `max(1, int(weight * 3))`: the number of copies of a keyword placed in
the weighted pool (`int` truncates; the weights are positive, so it is a
floor). -/
def replicationCount (w : ℚ) : Nat := max 1 (Int.toNat ⌊w * 3⌋)

/-- The replicate-then-draw pool: each keyword repeated
`replicationCount` times (`weighted.extend([kw] * max(1, int(weight * 3)))`). -/
def weightedPool (allDiscovery : List String)
    (performance : List (String × Perf)) : List String :=
  (allDiscovery.map fun kw =>
    List.replicate (replicationCount (kwWeight performance kw)) kw).flatten

/-- `query_builder.build_discovery_queries(keywords, site_targets, count,
performance)`: three patterns over the (possibly weighted) pool, shuffled,
truncated to `count`. -/
def build_discovery_queries (fromSignals adjacent biz : List String)
    (count : Nat) (performance : List (String × Perf)) (rng : DiscRng) : List Query :=
  let allDiscovery := fromSignals ++ adjacent
  if allDiscovery = [] then []
  else
    let pool := if performance ≠ [] then weightedPool allDiscovery performance
      else allDiscovery
    let q1 := pool.enum.map fun ik =>
      let b := biz.getD (rng.chooseBiz ik.1) ""
      ({ query := ik.2 ++ " " ++ b ++ " Sverige", qtype := "discovery",
         site := "general_swedish", include_domains := none,
         keywords_used := [ik.2, b] } : Query)
    let q2 := pool.map fun kw =>
      ({ query := kw ++ " företag", qtype := "discovery",
         site := "forums", include_domains := SITE_DOMAINS "forums",
         keywords_used := [kw] } : Query)
    let q3 := pool.map fun kw =>
      ({ query := kw ++ " svensk företag", qtype := "discovery",
         site := "nordic_business", include_domains := SITE_DOMAINS "nordic_business",
         keywords_used := [kw] } : Query)
    (rng.shuffleDisc (q1 ++ q2 ++ q3)).take count

/-- The `keywords.json` content and rotation config consumed by
`generate_run_queries`. -/
structure KeywordsConfig where
  pain_signals : List String
  ai_awareness : List String
  business_context : List String
  specific_tasks : List String
  from_signals : List String
  adjacent_terms : List String
  queries_per_run : Nat
  core_ratio : ℚ
deriving Repr

/-- `query_builder.generate_run_queries(conn)`: build both pools at three
times the target, filter the cooldown log, concatenate the two slices,
backfill with yet-unused queries when short, and truncate to the target. -/
def generate_run_queries (kw : KeywordsConfig) (recent : List String)
    (performance : List (String × Perf)) (crng : CoreRng) (drng : DiscRng) :
    List Query :=
  let total := kw.queries_per_run
  let core_count := (kw.core_ratio * total).floor.toNat
  let discovery_count := total - core_count
  let core0 := build_core_queries kw.pain_signals kw.ai_awareness
    kw.business_context kw.specific_tasks (core_count * 3) crng
  let disc0 := build_discovery_queries kw.from_signals kw.adjacent_terms
    kw.business_context (discovery_count * 3) performance drng
  let core := core0.filter fun q => decide (q.query ∉ recent)
  let discovery := disc0.filter fun q => decide (q.query ∉ recent)
  let finalQ := core.take core_count ++ discovery.take discovery_count
  let finalQ2 :=
    if finalQ.length < total then
      finalQ ++ ((core ++ discovery).filter fun q =>
        decide (q ∉ finalQ)).take (total - finalQ.length)
    else finalQ
  finalQ2.take total

end SwedishAI

open SwedishAI

/-! # Theorems -/

/-- If the window loop exits early (`some r`), the returned ratio cleared the
threshold and is the ratio of one of the scanned windows. -/
theorem loopWindows_some_mem (qc sc : List Char) (thr : ℚ) :
    ∀ (idxs : List Nat) (best : ℚ) (r b : ℚ),
      loopWindows qc sc thr idxs best = (some r, b) →
      thr ≤ r ∧ ∃ i ∈ idxs, windowRatio qc sc i = r := by
  intro idxs
  induction idxs with
  | nil => intro best r b h; simp [loopWindows] at h
  | cons i rest ih =>
    intro best r b h
    rw [loopWindows] at h
    by_cases hge : windowRatio qc sc i ≥ thr
    · simp only [if_pos hge] at h
      obtain ⟨h1, _⟩ := Prod.mk.injEq .. ▸ h
      cases h1
      exact ⟨hge, i, List.mem_cons_self .., rfl⟩
    · simp only [if_neg hge] at h
      obtain ⟨hr, i', hi', he⟩ := ih _ r b h
      exact ⟨hr, i', List.mem_cons_of_mem _ hi', he⟩

/-- If the window loop runs to completion, the best ratio it returns stays
below the threshold (given the running best started below it). -/
theorem loopWindows_none_lt (qc sc : List Char) (thr : ℚ) :
    ∀ (idxs : List Nat) (best : ℚ) (b : ℚ),
      loopWindows qc sc thr idxs best = (none, b) →
      best < thr → b < thr := by
  intro idxs
  induction idxs with
  | nil =>
    intro best b h hb
    simp only [loopWindows, Prod.mk.injEq] at h
    exact h.2 ▸ hb
  | cons i rest ih =>
    intro best b h hb
    rw [loopWindows] at h
    by_cases hge : windowRatio qc sc i ≥ thr
    · simp [if_pos hge] at h
    · simp only [if_neg hge] at h
      refine ih _ b h ?_
      split
      · exact lt_of_not_ge hge
      · exact hb

/-- If every window ratio stays below the threshold, the loop never takes
the early return. -/
theorem loopWindows_of_all_lt (qc sc : List Char) (thr : ℚ) :
    ∀ (idxs : List Nat) (best : ℚ),
      (∀ i ∈ idxs, windowRatio qc sc i < thr) →
      ∃ b, loopWindows qc sc thr idxs best = (none, b) := by
  intro idxs
  induction idxs with
  | nil => intro best _; exact ⟨best, rfl⟩
  | cons i rest ih =>
    intro best hall
    rw [loopWindows]
    have hlt : windowRatio qc sc i < thr := hall i (List.mem_cons_self ..)
    rw [if_neg (not_le.mpr hlt)]
    exact ih _ fun j hj => hall j (List.mem_cons_of_mem _ hj)

/-- Conversely, a completed scan means every window ratio was below the
threshold. -/
theorem loopWindows_none_all_lt (qc sc : List Char) (thr : ℚ) :
    ∀ (idxs : List Nat) (best : ℚ) (b : ℚ),
      loopWindows qc sc thr idxs best = (none, b) →
      ∀ i ∈ idxs, windowRatio qc sc i < thr := by
  intro idxs
  induction idxs with
  | nil => intro best b _ i hi; cases hi
  | cons i rest ih =>
    intro best b h j hj
    rw [loopWindows] at h
    by_cases hge : windowRatio qc sc i ≥ thr
    · simp [if_pos hge] at h
    · rw [if_neg hge] at h
      rcases List.mem_cons.mp hj with hj | hj
      · exact hj ▸ lt_of_not_ge hge
      · exact ih _ _ h j hj

/-- At the deployed threshold 0.65, `fuzzy_match` reports `passed` exactly
when the similarity it returns is at least 0.65 (every early-return
constant — 1.0, 0.85, 0.70 — clears 0.65, and a completed scan returns a
best ratio below it). -/
theorem fuzzy_match_passed_iff (q s : String) :
    (fuzzy_match q s (13/20)).1 = true ↔ 13/20 ≤ (fuzzy_match q s (13/20)).2 := by
  rw [fuzzy_match]
  split
  · simp only [Prod.fst, Prod.snd]
    norm_num
  · dsimp only
    split
    · simp only [Prod.fst, Prod.snd]
      norm_num
    · split
      next r b heq =>
        have hr := (loopWindows_some_mem _ _ _ _ _ _ _ heq).1
        simpa using hr
      next best heq =>
        have hb : best < 13/20 :=
          loopWindows_none_lt _ _ _ _ _ _ heq (by norm_num)
        split
        · split
          · simp only [Prod.fst, Prod.snd]
            norm_num
          · split
            · simp only [Prod.fst, Prod.snd]
              norm_num
            · simp only [Prod.fst, Prod.snd, decide_eq_true_eq, ge_iff_le]
        · simp only [Prod.fst, Prod.snd, decide_eq_true_eq, ge_iff_le]


/-- C1: the final status follows the fixed priority
quote=failed ⇒ rejected; else url=dead ⇒ rejected; else
(quote=partial or url=timeout) ⇒ weak; else verified — and
quote=failed gives rejected for every url value. -/
theorem claim_C1_final_status_priority :
    ∀ (q : QuoteCheck) (u : UrlCheck),
      (final_status .failed u = .rejected) ∧
      (q ≠ .failed → u = .dead → final_status q u = .rejected) ∧
      (q ≠ .failed → u ≠ .dead → (q = .partialMatch ∨ u = .timeout) →
        final_status q u = .weak) ∧
      (q ≠ .failed → u ≠ .dead → q ≠ .partialMatch → u ≠ .timeout →
        final_status q u = .verified) := by
  intro q u
  cases q <;> cases u <;> decide

/-- C1 witness: instance of the priority rules at concrete statuses. -/
theorem claim_C1_final_status_priority_witness :
    final_status .failed .live = .rejected ∧
    final_status .passed .dead = .rejected ∧
    final_status .partialMatch .live = .weak ∧
    final_status .passed .live = .verified := by
  refine ⟨(claim_C1_final_status_priority .passed .live).1,
    (claim_C1_final_status_priority .passed .dead).2.1 (by decide) rfl,
    (claim_C1_final_status_priority .partialMatch .live).2.2.1 (by decide) (by decide)
      (Or.inl rfl),
    (claim_C1_final_status_priority .passed .live).2.2.2 (by decide) (by decide)
      (by decide) (by decide)⟩

/-- C2 (amended): the quote check behaves as the priority chain of the
source — an exact normalized substring returns (passed, 1.0); otherwise a
scanned window reaching ratio 0.65 returns passed; otherwise, for
normalized quotes longer than 50 characters, both halves being literal
substrings returns (passed, 0.85) and exactly one half returns
(passed, 0.70); `passed` is reported exactly when the returned similarity
is at least 0.65; and the recorded classification is passed for
similarity ≥ 0.65, partial for 0.5 < similarity < 0.65, and failed for
similarity ≤ 0.5 (similarity exactly 0.5 is classified failed). -/
theorem claim_C2_quote_check_amended :
    (∀ q s : String, q.data ≠ [] → s.data ≠ [] →
      isSubstring (pyNormalize q) (pyNormalize s) = true →
      fuzzy_match q s (13/20) = (true, 1)) ∧
    (∀ q s : String,
      (fuzzy_match q s (13/20)).1 = true ↔ 13/20 ≤ (fuzzy_match q s (13/20)).2) ∧
    (∀ q s : String, q.data ≠ [] → s.data ≠ [] →
      isSubstring (pyNormalize q) (pyNormalize s) = false →
      (∃ i ∈ windowStarts (pyNormalize s).length (pyNormalize q).length
          (max 1 ((pyNormalize q).length / 4)),
          13/20 ≤ windowRatio (pyNormalize q) (pyNormalize s) i) →
      (fuzzy_match q s (13/20)).1 = true) ∧
    (∀ q s : String, q.data ≠ [] → s.data ≠ [] →
      isSubstring (pyNormalize q) (pyNormalize s) = false →
      (∀ i ∈ windowStarts (pyNormalize s).length (pyNormalize q).length
          (max 1 ((pyNormalize q).length / 4)),
          windowRatio (pyNormalize q) (pyNormalize s) i < 13/20) →
      (pyNormalize q).length > 50 →
      (isSubstring ((pyNormalize q).take ((pyNormalize q).length / 2)) (pyNormalize s) = true →
        isSubstring ((pyNormalize q).drop ((pyNormalize q).length / 2)) (pyNormalize s) = true →
        fuzzy_match q s (13/20) = (true, 17/20)) ∧
      (isSubstring ((pyNormalize q).take ((pyNormalize q).length / 2)) (pyNormalize s) ≠
          isSubstring ((pyNormalize q).drop ((pyNormalize q).length / 2)) (pyNormalize s) →
        fuzzy_match q s (13/20) = (true, 7/10))) ∧
    (∀ q s : String,
      ((quoteCheckOf q s).1 = .passed ↔ 13/20 ≤ (quoteCheckOf q s).2) ∧
      ((quoteCheckOf q s).1 = .partialMatch ↔
        1/2 < (quoteCheckOf q s).2 ∧ (quoteCheckOf q s).2 < 13/20) ∧
      ((quoteCheckOf q s).1 = .failed ↔ (quoteCheckOf q s).2 ≤ 1/2)) := by
  refine ⟨?_, fuzzy_match_passed_iff, ?_, ?_, ?_⟩
  · intro q s hq hs hsub
    rw [fuzzy_match, if_neg (by simp [hq, hs])]
    dsimp only
    rw [if_pos hsub]
  · intro q s hq hs hsub ⟨i, hi, hge⟩
    rw [fuzzy_match, if_neg (by simp [hq, hs])]
    dsimp only
    simp only [hsub, Bool.false_eq_true, if_false]
    rcases hres : loopWindows (pyNormalize q) (pyNormalize s) (13/20)
        (windowStarts (pyNormalize s).length (pyNormalize q).length
          (max 1 ((pyNormalize q).length / 4))) 0 with ⟨o, b⟩
    cases o with
    | some r => rfl
    | none =>
      exact absurd (loopWindows_none_all_lt _ _ _ _ _ _ hres i hi)
        (not_lt.mpr hge)
  · intro q s hq hs hsub hall hlen
    obtain ⟨b, hb⟩ := loopWindows_of_all_lt (pyNormalize q) (pyNormalize s) (13/20)
      (windowStarts (pyNormalize s).length (pyNormalize q).length
        (max 1 ((pyNormalize q).length / 4))) 0 hall
    constructor
    · intro h1 h2
      rw [fuzzy_match, if_neg (by simp [hq, hs])]
      dsimp only
      simp only [hsub, Bool.false_eq_true, if_false]
      rw [hb]
      dsimp only
      rw [if_pos hlen, h1, h2]
      simp
    · intro hne
      rw [fuzzy_match, if_neg (by simp [hq, hs])]
      dsimp only
      simp only [hsub, Bool.false_eq_true, if_false]
      rw [hb]
      dsimp only
      rw [if_pos hlen]
      rcases hf : isSubstring ((pyNormalize q).take ((pyNormalize q).length / 2))
          (pyNormalize s) with _ | _ <;>
        rcases hg : isSubstring ((pyNormalize q).drop ((pyNormalize q).length / 2))
            (pyNormalize s) with _ | _ <;>
        simp_all
  · intro q s
    have hiff := fuzzy_match_passed_iff q s
    rw [quoteCheckOf]
    dsimp only
    by_cases hp : (fuzzy_match q s (13/20)).1 = true
    · have hsim := hiff.mp hp
      rw [if_pos hp]
      refine ⟨iff_of_true rfl hsim, iff_of_false (by simp) ?_,
        iff_of_false (by simp) ?_⟩
      · rintro ⟨-, h2⟩; linarith
      · intro h; linarith
    · have hsim : ¬(13/20 ≤ (fuzzy_match q s (13/20)).2) := fun h => hp (hiff.mpr h)
      have hlt : (fuzzy_match q s (13/20)).2 < 13/20 := lt_of_not_ge hsim
      rw [if_neg hp]
      by_cases h2 : (fuzzy_match q s (13/20)).2 > 1/2
      · rw [if_pos h2]
        refine ⟨iff_of_false (by simp) ?_, iff_of_true rfl ⟨h2, hlt⟩,
          iff_of_false (by simp) ?_⟩
        · intro h; linarith
        · intro h; linarith
      · rw [if_neg h2]
        refine ⟨iff_of_false (by simp) ?_, iff_of_false (by simp) ?_,
          iff_of_true rfl (le_of_not_gt h2)⟩
        · intro h; linarith [le_of_not_gt h2]
        · rintro ⟨h, -⟩; exact h2 h

/-- C2 counterexample: for quote "ab" and source "ac" the computed
similarity is exactly 0.5 and the recorded classification is `failed`,
although the claim reserves `failed` for similarity strictly below 0.5
(0.5 should fall in its `partial` band). -/
theorem claim_C2_counterexample :
    (quoteCheckOf "ab" "ac").1 = QuoteCheck.failed ∧
    (quoteCheckOf "ab" "ac").2 = 1/2 ∧
    ¬((quoteCheckOf "ab" "ac").2 < 1/2) := by
  have e : quoteCheckOf "ab" "ac" = (QuoteCheck.failed, 1/2) := by
    with_unfolding_all decide
  rw [e]
  refine ⟨rfl, rfl, by norm_num⟩

/-- C2 witness: each guarded branch of the amended claim realized on a
concrete input — exact substring, a window hit, both halves of a long
quote, one half of a long quote, and the failed band at similarity 0. -/
theorem claim_C2_quote_check_amended_witness :
    fuzzy_match "ab" "xaby" (13/20) = (true, 1) ∧
    (fuzzy_match "abcd" "abxd" (13/20)).1 = true ∧
    fuzzy_match "aaaaaaaaaaaaaaaaaaaaaaaaaaaaaaaaaaaaaaaaaaaaaaaaaaaa"
      "aaaaaaaaaaaaaaaaaaaaaaaaaa" (13/20) = (true, 17/20) ∧
    fuzzy_match "aaaaaaaaaaaaaaaaaaaaaaaaaabbbbbbbbbbbbbbbbbbbbbbbbbb"
      "aaaaaaaaaaaaaaaaaaaaaaaaaa" (13/20) = (true, 7/10) ∧
    (quoteCheckOf "ab" "xy").1 = QuoteCheck.failed := by
  refine ⟨claim_C2_quote_check_amended.1 "ab" "xaby"
      (by decide) (by decide) (by with_unfolding_all decide),
    claim_C2_quote_check_amended.2.2.1 "abcd" "abxd"
      (by decide) (by decide) (by with_unfolding_all decide)
      (by with_unfolding_all decide),
    (claim_C2_quote_check_amended.2.2.2.1
      "aaaaaaaaaaaaaaaaaaaaaaaaaaaaaaaaaaaaaaaaaaaaaaaaaaaa"
      "aaaaaaaaaaaaaaaaaaaaaaaaaa"
      (by decide) (by decide) (by with_unfolding_all decide)
      (by with_unfolding_all decide) (by with_unfolding_all decide)).1
      (by with_unfolding_all decide) (by with_unfolding_all decide),
    (claim_C2_quote_check_amended.2.2.2.1
      "aaaaaaaaaaaaaaaaaaaaaaaaaabbbbbbbbbbbbbbbbbbbbbbbbbb"
      "aaaaaaaaaaaaaaaaaaaaaaaaaa"
      (by decide) (by decide) (by with_unfolding_all decide)
      (by with_unfolding_all decide) (by with_unfolding_all decide)).2
      (by with_unfolding_all decide),
    (claim_C2_quote_check_amended.2.2.2.2 "ab" "xy").2.2.mpr
      (by with_unfolding_all decide)⟩

/-- The duplicate row loop returns `true` exactly when some row passes the
quote-similarity test. -/
theorem findDup_true_iff (quote : String) :
    ∀ rows : List PriorRecord,
      (findDup quote rows).1 = true ↔
      ∃ r ∈ rows, quote ≠ "" ∧ r.signal.original_quote.getD "" ≠ "" ∧
        dupRatio quote (r.signal.original_quote.getD "") > 7/10 := by
  intro rows
  induction rows with
  | nil => simp [findDup]
  | cons r rest ih =>
    rw [findDup]
    by_cases hc : quote ≠ "" ∧ r.signal.original_quote.getD "" ≠ "" ∧
        dupRatio quote (r.signal.original_quote.getD "") > 7/10
    · rw [if_pos hc]
      exact iff_of_true rfl ⟨r, List.mem_cons_self .., hc⟩
    · rw [if_neg hc]
      rw [ih]
      constructor
      · rintro ⟨r', hr', h⟩
        exact ⟨r', List.mem_cons_of_mem _ hr', h⟩
      · rintro ⟨r', hr', h⟩
        rcases List.mem_cons.mp hr' with rfl | hr'
        · exact absurd h hc
        · exact ⟨r', hr', h⟩

/-- C10: a signal with an empty quote or an empty source text gets
similarity 0.0 and `quote_check = failed` from `fuzzy_match`, and its
stored final status is `rejected` for every URL status and duplicate
flag — it can never be `verified` or `weak`. -/
theorem claim_C10_empty_quote_rejected :
    ∀ (q s : String) (u : UrlCheck) (d : Bool × Option Nat),
      q.data = [] ∨ s.data = [] →
      fuzzy_match q s (13/20) = (false, 0) ∧
      (quoteCheckOf q s).1 = QuoteCheck.failed ∧
      (verificationRecord q s u d).final_status = FinalStatus.rejected ∧
      (verificationRecord q s u d).final_status ≠ FinalStatus.verified ∧
      (verificationRecord q s u d).final_status ≠ FinalStatus.weak := by
  intro q s u d h
  have h1 : fuzzy_match q s (13/20) = (false, 0) := by rw [fuzzy_match, if_pos h]
  have h2 : (quoteCheckOf q s).1 = QuoteCheck.failed := by
    rw [quoteCheckOf]
    dsimp only
    rw [h1]
    norm_num
  have h3 : (verificationRecord q s u d).final_status = FinalStatus.rejected := by
    rw [verificationRecord]
    dsimp only
    rw [h2, final_status, if_pos rfl]
  refine ⟨h1, h2, h3, ?_, ?_⟩
  · rw [h3]; decide
  · rw [h3]; decide

/-- C10 witness: a signal with an empty quote and a live URL is rejected. -/
theorem claim_C10_empty_quote_rejected_witness :
    fuzzy_match "" "some text" (13/20) = (false, 0) ∧
    (verificationRecord "" "some text" UrlCheck.live (false, none)).final_status =
      FinalStatus.rejected :=
  ⟨(claim_C10_empty_quote_rejected "" "some text" .live (false, none) (Or.inl rfl)).1,
   (claim_C10_empty_quote_rejected "" "some text" .live (false, none) (Or.inl rfl)).2.2.1⟩

/-- C8 (amended): the duplicate check flags a candidate exactly when the
candidate has a truthy person or company name and some prior record
satisfies the built `WHERE` clause — matching the person name when one is
present AND the company name when one is present — is verified, lies in
the trailing 7-day window, and both quotes are non-empty with similarity
ratio above 0.7; and the duplicate flag never changes the final status. -/
theorem claim_C8_duplicate_check_amended :
    (∀ (now : ℤ) (db : List PriorRecord) (sig : ExtractedSignal),
      (check_duplicate now db sig).1 = true ↔
      ((pyTruthy sig.person_name ||
          pyTruthy (pyOrStr sig.company_name sig.person_company)) = true ∧
        ∃ r ∈ db,
          whereMatch sig.person_name
            (pyOrStr sig.company_name sig.person_company) r.signal = true ∧
          r.final_status = FinalStatus.verified ∧
          inWindow now r.signal = true ∧
          sig.original_quote.getD "" ≠ "" ∧
          r.signal.original_quote.getD "" ≠ "" ∧
          dupRatio (sig.original_quote.getD "")
            (r.signal.original_quote.getD "") > 7/10)) ∧
    (∀ (q s : String) (u : UrlCheck) (d1 d2 : Bool × Option Nat),
      (verificationRecord q s u d1).final_status =
        (verificationRecord q s u d2).final_status) := by
  constructor
  · intro now db sig
    rw [check_duplicate]
    by_cases hg : ¬pyTruthy sig.person_name ∧
        ¬pyTruthy (pyOrStr sig.company_name sig.person_company)
    · rw [if_pos hg]
      obtain ⟨h1, h2⟩ := hg
      simp only [Bool.not_eq_true] at h1 h2
      simp [h1, h2]
    · rw [if_neg hg]
      have hor : (pyTruthy sig.person_name ||
          pyTruthy (pyOrStr sig.company_name sig.person_company)) = true := by
        rcases not_and_or.mp hg with h | h
        · exact Bool.or_eq_true_iff.mpr (Or.inl (not_not.mp h))
        · exact Bool.or_eq_true_iff.mpr (Or.inr (not_not.mp h))
      rw [findDup_true_iff]
      constructor
      · rintro ⟨r, hr, hq, he, hrat⟩
        obtain ⟨hrdb, hp⟩ := List.mem_filter.mp hr
        simp only [Bool.and_eq_true, beq_iff_eq] at hp
        exact ⟨hor, r, hrdb, hp.1.1, hp.1.2, hp.2, hq, he, hrat⟩
      · rintro ⟨-, r, hrdb, hw, hv, hwin, hq, he, hrat⟩
        refine ⟨r, List.mem_filter.mpr ⟨hrdb, ?_⟩, hq, he, hrat⟩
        simp [hw, hv, hwin]
  · intro q s u d1 d2
    rfl

/-- C8 counterexample: a candidate with person "Anna" and company "C2"
against a prior verified in-window record with person "Anna", company
"C1" and the identical quote — the claim's "same person or company name"
reading demands a duplicate flag, but the code's conjunctive `WHERE`
clause filters the record out, so no flag is set. -/
theorem claim_C8_counterexample :
    check_duplicate 0
      [⟨⟨1, some "Anna", none, some "C1", some "hej", 0⟩, FinalStatus.verified⟩]
      ⟨2, some "Anna", none, some "C2", some "hej", 0⟩ = (false, none) ∧
    (⟨1, some "Anna", none, some "C1", some "hej", 0⟩ :
        ExtractedSignal).person_name =
      (⟨2, some "Anna", none, some "C2", some "hej", 0⟩ :
        ExtractedSignal).person_name ∧
    inWindow 0 ⟨1, some "Anna", none, some "C1", some "hej", 0⟩ = true ∧
    dupRatio "hej" "hej" > 7/10 := by
  refine ⟨by with_unfolding_all decide, rfl, by decide, ?_⟩
  with_unfolding_all decide

/-- Counter bookkeeping of repeated keyword-stat updates: each update adds
one use and (for a success) one success to the row. -/
theorem keywordFold_counters (uses : List Bool) :
    ∀ row : KeywordRow,
      (uses.foldl update_keyword_stats row).times_used = row.times_used + uses.length ∧
      (uses.foldl update_keyword_stats row).times_produced_signal =
        row.times_produced_signal + uses.count true := by
  induction uses with
  | nil => intro row; simp
  | cons u rest ih =>
    intro row
    rw [List.foldl_cons]
    obtain ⟨h1, h2⟩ := ih (update_keyword_stats row u)
    refine ⟨?_, ?_⟩
    · rw [h1]; simp [update_keyword_stats]; omega
    · rw [h2]
      cases u
      · simp [update_keyword_stats, List.count_cons]
      · simp [update_keyword_stats, List.count_cons]
        omega

/-- After at least one update, the stored hit rate equals the stored
success count over the stored use count. -/
theorem keywordFold_hit_rate (uses : List Bool) (hne : uses ≠ []) :
    ∀ row, (uses.foldl update_keyword_stats row).hit_rate =
      ((uses.foldl update_keyword_stats row).times_produced_signal : ℚ) /
        ((uses.foldl update_keyword_stats row).times_used : ℚ) := by
  induction uses with
  | nil => exact absurd rfl hne
  | cons u rest ih =>
    intro row
    rw [List.foldl_cons]
    by_cases h : rest = []
    · subst h
      simp [update_keyword_stats]
    · exact ih h _

/-- C6: each keyword-stats update re-establishes
`hit_rate = times_produced_signal / times_used` in one step; starting from
a fresh row, after `k` uses with `s` successes the counters are exactly
`(k, s)` and the stored hit rate is exactly `s/k`; one further
unsuccessful use yields exactly `s/(k+1)`. -/
theorem claim_C6_hit_rate_invariant :
    (∀ (row : KeywordRow) (p : Bool),
      (update_keyword_stats row p).hit_rate =
        ((update_keyword_stats row p).times_produced_signal : ℚ) /
          ((update_keyword_stats row p).times_used : ℚ)) ∧
    (∀ uses : List Bool,
      (runKeywordUpdates uses).times_used = uses.length ∧
      (runKeywordUpdates uses).times_produced_signal = uses.count true ∧
      (uses ≠ [] →
        (runKeywordUpdates uses).hit_rate =
          (uses.count true : ℚ) / (uses.length : ℚ))) ∧
    (∀ uses : List Bool,
      (runKeywordUpdates (uses ++ [false])).hit_rate =
        (uses.count true : ℚ) / ((uses.length : ℚ) + 1)) := by
  refine ⟨?_, ?_, ?_⟩
  · intro row p
    simp [update_keyword_stats]
  · intro uses
    obtain ⟨h1, h2⟩ := keywordFold_counters uses initKeywordRow
    refine ⟨by rw [runKeywordUpdates, h1]; simp [initKeywordRow],
      by rw [runKeywordUpdates, h2]; simp [initKeywordRow], ?_⟩
    intro hne
    rw [runKeywordUpdates, keywordFold_hit_rate uses hne, h1, h2]
    simp [initKeywordRow]
  · intro uses
    have hne : uses ++ [false] ≠ [] := by simp
    obtain ⟨h1, h2⟩ := keywordFold_counters (uses ++ [false]) initKeywordRow
    rw [runKeywordUpdates, keywordFold_hit_rate _ hne, h1, h2]
    simp [initKeywordRow]

/-- The merge loop only appends: the original pool is a prefix, and every
appended term comes from the suggestions and was not already present. -/
theorem addNewKeywords_eq_append (new : List String) :
    ∀ fs, ∃ e, addNewKeywords fs new = fs ++ e ∧ ∀ t ∈ e, t ∈ new ∧ t ∉ fs := by
  induction new with
  | nil => intro fs; exact ⟨[], by simp [addNewKeywords], by simp⟩
  | cons t rest ih =>
    intro fs
    rw [addNewKeywords]
    by_cases h : t ∈ fs
    · rw [if_pos h]
      obtain ⟨e, he, hp⟩ := ih fs
      exact ⟨e, he, fun x hx => ⟨List.mem_cons_of_mem _ (hp x hx).1, (hp x hx).2⟩⟩
    · rw [if_neg h]
      obtain ⟨e, he, hp⟩ := ih (fs ++ [t])
      refine ⟨t :: e, by rw [he]; simp, ?_⟩
      intro x hx
      rcases List.mem_cons.mp hx with rfl | hx
      · exact ⟨List.mem_cons_self .., h⟩
      · obtain ⟨h1, h2⟩ := hp x hx
        refine ⟨List.mem_cons_of_mem _ h1, fun hxfs => h2 ?_⟩
        simp [hxfs]

/-- Every suggested term ends up in the merged pool. -/
theorem mem_addNewKeywords (new : List String) :
    ∀ fs t, t ∈ new → t ∈ addNewKeywords fs new := by
  induction new with
  | nil => intro fs t h; cases h
  | cons u rest ih =>
    intro fs t ht
    rw [addNewKeywords]
    rcases List.mem_cons.mp ht with rfl | ht
    · by_cases h : t ∈ fs
      · rw [if_pos h]
        obtain ⟨e, he, -⟩ := addNewKeywords_eq_append rest fs
        rw [he]
        exact List.mem_append_left _ h
      · rw [if_neg h]
        obtain ⟨e, he, -⟩ := addNewKeywords_eq_append rest (fs ++ [t])
        rw [he]
        exact List.mem_append_left _ (List.mem_append_right _ (by simp))
    · by_cases h : u ∈ fs
      · rw [if_pos h]; exact ih fs t ht
      · rw [if_neg h]; exact ih _ t ht

/-- Filtering by the retire set twice is the same as filtering once. -/
theorem filter_notin_idem (l retire : List String) :
    ((l.filter fun t => decide (t ∉ retire)).filter fun t => decide (t ∉ retire)) =
      l.filter fun t => decide (t ∉ retire) := by
  rw [List.filter_filter]
  simp

/-- C9: a suggested term already present in `from_signals` is skipped, and
running the keyword merge twice with the same suggestion input produces
the same pools as running it once. -/
theorem claim_C9_feedback_merge_idempotent :
    (∀ fs new : List String, (∀ t ∈ new, t ∈ fs) → addNewKeywords fs new = fs) ∧
    (∀ (pools : DiscoveryPools) (new retire : List String),
      update_keywords_file (update_keywords_file pools new retire) new retire =
        update_keywords_file pools new retire) := by
  constructor
  · intro fs new
    induction new generalizing fs with
    | nil => intro _; rfl
    | cons t rest ih =>
      intro h
      rw [addNewKeywords, if_pos (h t (List.mem_cons_self ..))]
      exact ih fs fun x hx => h x (List.mem_cons_of_mem _ hx)
  · intro pools new retire
    simp only [update_keywords_file, DiscoveryPools.mk.injEq]
    refine ⟨?_, filter_notin_idem _ _⟩
    obtain ⟨e, he, hp⟩ := addNewKeywords_eq_append new
      ((addNewKeywords pools.from_signals new).filter fun t => decide (t ∉ retire))
    rw [he, List.filter_append, filter_notin_idem]
    have hnil : (e.filter fun t => decide (t ∉ retire)) = [] := by
      rw [List.filter_eq_nil_iff]
      intro x hx
      obtain ⟨hxnew, hxnot⟩ := hp x hx
      simp only [decide_eq_true_eq, not_not]
      by_contra hxr
      exact hxnot (List.mem_filter.mpr
        ⟨mem_addNewKeywords new pools.from_signals x hxnew, by simpa using hxr⟩)
    rw [hnil, List.append_nil]

/-- C9 witness: merging a term that is already in the pool leaves the pool
unchanged, and a second run of the file update is a no-op. -/
theorem claim_C9_feedback_merge_idempotent_witness :
    addNewKeywords ["a", "b"] ["a"] = ["a", "b"] ∧
    update_keywords_file
      (update_keywords_file ⟨["a"], ["b", "c"]⟩ ["a", "d"] ["c"]) ["a", "d"] ["c"] =
      update_keywords_file ⟨["a"], ["b", "c"]⟩ ["a", "d"] ["c"] :=
  ⟨claim_C9_feedback_merge_idempotent.1 ["a", "b"] ["a"] (by decide),
   claim_C9_feedback_merge_idempotent.2 ⟨["a"], ["b", "c"]⟩ ["a", "d"] ["c"]⟩

/-- Projection of the credibility result: the reject switch. -/
theorem dcc_auto_reject (url html : String) :
    (deterministic_credibility_check url html).auto_reject =
      (!(sponsored_patterns.filter fun p =>
          reSearch p.2 (html.data.map pyLower)).isEmpty ||
       !(url_red_flags.filter fun f =>
          isSubstring f.data (lowerString url).data).isEmpty) := rfl

/-- Projection of the credibility result: the accumulated flag list. -/
theorem dcc_red_flags (url html : String) :
    (deterministic_credibility_check url html).red_flags =
      (if (deterministic_credibility_check url html).is_nordic then
        ((sponsored_patterns.filter fun p =>
            reSearch p.2 (html.data.map pyLower)).map
          fun p => "sponsored_marker: " ++ p.1) ++
        ((url_red_flags.filter fun f =>
            isSubstring f.data (lowerString url).data).map
          fun f => "url_contains: " ++ f)
      else
        ((sponsored_patterns.filter fun p =>
            reSearch p.2 (html.data.map pyLower)).map
          fun p => "sponsored_marker: " ++ p.1) ++
        ((url_red_flags.filter fun f =>
            isSubstring f.data (lowerString url).data).map
          fun f => "url_contains: " ++ f) ++ ["non_nordic_geography"]) := rfl

/-- C7: any sponsorship marker in the raw markup or sponsored-section
marker in the URL forces verdict reject whatever the geography, and every
matched marker is accumulated in the flags; a record that is not
auto-rejected gets review when not confirmed regional and accept when
confirmed regional. -/
theorem claim_C7_credibility_verdict :
    (∀ url html : String,
      ((∃ p ∈ sponsored_patterns, reSearch p.2 (html.data.map pyLower) = true) ∨
       (∃ f ∈ url_red_flags, isSubstring f.data (lowerString url).data = true)) →
      (deterministic_credibility_check url html).auto_reject = true ∧
      run_credibility_verdict url html = Verdict.reject) ∧
    (∀ (url html : String) (p : String × List ReTok), p ∈ sponsored_patterns →
      reSearch p.2 (html.data.map pyLower) = true →
      ("sponsored_marker: " ++ p.1) ∈
        (deterministic_credibility_check url html).red_flags) ∧
    (∀ (url html f : String), f ∈ url_red_flags →
      isSubstring f.data (lowerString url).data = true →
      ("url_contains: " ++ f) ∈
        (deterministic_credibility_check url html).red_flags) ∧
    (∀ url html : String,
      (deterministic_credibility_check url html).auto_reject = false →
      (deterministic_credibility_check url html).is_nordic = false →
      run_credibility_verdict url html = Verdict.review) ∧
    (∀ url html : String,
      (deterministic_credibility_check url html).auto_reject = false →
      (deterministic_credibility_check url html).is_nordic = true →
      run_credibility_verdict url html = Verdict.accept) := by
  have har : ∀ url html : String,
      ((∃ p ∈ sponsored_patterns, reSearch p.2 (html.data.map pyLower) = true) ∨
       (∃ f ∈ url_red_flags, isSubstring f.data (lowerString url).data = true)) →
      (deterministic_credibility_check url html).auto_reject = true := by
    intro url html h
    rw [dcc_auto_reject]
    rcases h with ⟨p, hp, hm⟩ | ⟨f, hf, hm⟩
    · have : p ∈ sponsored_patterns.filter fun p =>
          reSearch p.2 (html.data.map pyLower) := List.mem_filter.mpr ⟨hp, hm⟩
      simp [List.isEmpty_eq_false_iff_exists_mem.mpr ⟨p, this⟩]
    · have : f ∈ url_red_flags.filter fun f =>
          isSubstring f.data (lowerString url).data := List.mem_filter.mpr ⟨hf, hm⟩
      simp [List.isEmpty_eq_false_iff_exists_mem.mpr ⟨f, this⟩]
  refine ⟨?_, ?_, ?_, ?_, ?_⟩
  · intro url html h
    refine ⟨har url html h, ?_⟩
    rw [run_credibility_verdict]
    simp [har url html h]
  · intro url html p hp hm
    rw [dcc_red_flags]
    have h1 : ("sponsored_marker: " ++ p.1) ∈
        (sponsored_patterns.filter fun p =>
          reSearch p.2 (html.data.map pyLower)).map
          (fun p => "sponsored_marker: " ++ p.1) :=
      List.mem_map_of_mem _ (List.mem_filter.mpr ⟨hp, hm⟩)
    split
    · exact List.mem_append_left _ h1
    · exact List.mem_append_left _ (List.mem_append_left _ h1)
  · intro url html f hf hm
    rw [dcc_red_flags]
    have h1 : ("url_contains: " ++ f) ∈
        (url_red_flags.filter fun f =>
          isSubstring f.data (lowerString url).data).map
          (fun f => "url_contains: " ++ f) :=
      List.mem_map_of_mem _ (List.mem_filter.mpr ⟨hf, hm⟩)
    split
    · exact List.mem_append_right _ h1
    · exact List.mem_append_left _ (List.mem_append_right _ h1)
  · intro url html h1 h2
    rw [run_credibility_verdict]
    simp [h1, h2]
  · intro url html h1 h2
    rw [run_credibility_verdict]
    simp [h1, h2]

/-- C7 witness: a Swedish-TLD page whose markup carries "reklam" is
rejected with both flags recorded; a non-Nordic page without markers is
sent to review; a Nordic page without markers is accepted. -/
theorem claim_C7_credibility_verdict_witness :
    run_credibility_verdict "https://di.se/reklam/x" "en reklam kampanj" =
      Verdict.reject ∧
    ("sponsored_marker: reklam" ∈
      (deterministic_credibility_check "https://di.se/reklam/x"
        "en reklam kampanj").red_flags) ∧
    ("url_contains: /reklam/" ∈
      (deterministic_credibility_check "https://di.se/reklam/x"
        "en reklam kampanj").red_flags) ∧
    run_credibility_verdict "https://example.com/a" "hello" = Verdict.review ∧
    run_credibility_verdict "https://foretag.se/sida" "hej" = Verdict.accept := by
  refine ⟨(claim_C7_credibility_verdict.1 "https://di.se/reklam/x" "en reklam kampanj"
      (Or.inl ⟨("reklam", lits "reklam"), by decide, by decide⟩)).2,
    claim_C7_credibility_verdict.2.1 "https://di.se/reklam/x" "en reklam kampanj"
      ("reklam", lits "reklam") (by decide) (by decide),
    claim_C7_credibility_verdict.2.2.1 "https://di.se/reklam/x" "en reklam kampanj"
      "/reklam/" (by decide) (by decide),
    claim_C7_credibility_verdict.2.2.2.1 "https://example.com/a" "hello"
      (by decide) (by decide),
    claim_C7_credibility_verdict.2.2.2.2 "https://foretag.se/sida" "hej"
      (by decide) (by decide)⟩

set_option maxRecDepth 8000 in
/-- C5: the capture hash is a function of the URL and the first 500
characters of the text; an insert whose hash is already stored is
rejected (`None`, store unchanged) while a fresh hash is appended; in
particular a second capture of the same URL with the same leading 500
characters is always rejected, and the same URL with different leading
text hashes differently at a concrete input. -/
theorem claim_C5_source_hash_dedup :
    (∀ url c1 c2 : String, c1.data.take 500 = c2.data.take 500 →
      make_source_hash url c1 = make_source_hash url c2) ∧
    (∀ (db : List CrawlRow) (url d t raw rh q kt : String) (hs : Nat),
      (∃ r ∈ db, r.source_hash = make_source_hash url raw) →
      store_crawl_result db url d t raw rh q kt hs = (db, none)) ∧
    (∀ (db : List CrawlRow) (url d t raw rh q kt : String) (hs : Nat),
      (∀ r ∈ db, r.source_hash ≠ make_source_hash url raw) →
      ∃ row : CrawlRow,
        store_crawl_result db url d t raw rh q kt hs =
          (db ++ [row], some (make_source_hash url raw)) ∧
        row.source_hash = make_source_hash url raw ∧
        row.source_url = url ∧ row.raw_text = raw) ∧
    (∀ (db db1 : List CrawlRow) (url d1 t1 c1 rh1 q1 kt1 d2 t2 c2 rh2 q2 kt2 : String)
        (hs1 hs2 : Nat) (h : Nat),
      c1.data.take 500 = c2.data.take 500 →
      store_crawl_result db url d1 t1 c1 rh1 q1 kt1 hs1 = (db1, some h) →
      store_crawl_result db1 url d2 t2 c2 rh2 q2 kt2 hs2 = (db1, none)) ∧
    make_source_hash "https://x.se/a" "hello world" ≠
      make_source_hash "https://x.se/a" "goodbye world" := by
  have hcong : ∀ url c1 c2 : String, c1.data.take 500 = c2.data.take 500 →
      make_source_hash url c1 = make_source_hash url c2 := by
    intro url c1 c2 h
    rw [make_source_hash, make_source_hash, h]
  have hdup : ∀ (db : List CrawlRow) (url d t raw rh q kt : String) (hs : Nat),
      (∃ r ∈ db, r.source_hash = make_source_hash url raw) →
      store_crawl_result db url d t raw rh q kt hs = (db, none) := by
    intro db url d t raw rh q kt hs ⟨r, hr, he⟩
    rw [store_crawl_result]
    have hany : (db.any fun rr => rr.source_hash == make_source_hash url raw) = true :=
      List.any_eq_true.mpr ⟨r, hr, beq_iff_eq.mpr he⟩
    rw [if_pos hany]
  refine ⟨hcong, hdup, ?_, ?_, ?_⟩
  · intro db url d t raw rh q kt hs hfresh
    rw [store_crawl_result]
    have hany : ¬((db.any fun rr => rr.source_hash == make_source_hash url raw) = true) := by
      intro hany
      obtain ⟨r, hr, he⟩ := List.any_eq_true.mp hany
      exact hfresh r hr (beq_iff_eq.mp he)
    rw [if_neg hany]
    exact ⟨_, rfl, rfl, rfl, rfl⟩
  · intro db db1 url d1 t1 c1 rh1 q1 kt1 d2 t2 c2 rh2 q2 kt2 hs1 hs2 h htake hstore
    rw [store_crawl_result] at hstore
    split at hstore
    · simp at hstore
    · rw [Prod.mk.injEq] at hstore
      obtain ⟨hdb, -⟩ := hstore
      apply hdup db1 url d2 t2 c2 rh2 q2 kt2 hs2
      rw [← hdb]
      refine ⟨_, List.mem_append_right _ (List.mem_cons_self ..), ?_⟩
      show make_source_hash url c1 = make_source_hash url c2
      exact hcong url c1 c2 htake
  · intro hcontr
    have hval1 : make_source_hash "https://x.se/a" "hello world" =
        2441957507475683735 := by decide
    have hval2 : make_source_hash "https://x.se/a" "goodbye world" =
        336173477442135569 := by decide
    rw [hval1, hval2] at hcontr
    exact absurd hcontr (by decide)

set_option maxRecDepth 8000 in
/-- C5 witness: storing a fresh capture appends it and returns its hash;
re-storing the same URL and text is rejected with the table unchanged. -/
theorem claim_C5_source_hash_dedup_witness :
    store_crawl_result [] "u" "d" "t" "hello" "h1" "q" "core" 200 =
      ([⟨7050110444001794879, "u", "d", "t", "hello", "h1", "q", "core", 200⟩],
        some 7050110444001794879) ∧
    store_crawl_result
      [⟨7050110444001794879, "u", "d", "t", "hello", "h1", "q", "core", 200⟩]
      "u" "d2" "t2" "hello" "h2" "q2" "core" 200 =
      ([⟨7050110444001794879, "u", "d", "t", "hello", "h1", "q", "core", 200⟩], none) ∧
    make_source_hash "u" "hello" = make_source_hash "u" "hello" := by
  refine ⟨by decide, ?_, claim_C5_source_hash_dedup.1 "u" "hello" "hello" rfl⟩
  exact claim_C5_source_hash_dedup.2.1
    [⟨7050110444001794879, "u", "d", "t", "hello", "h1", "q", "core", 200⟩]
    "u" "d2" "t2" "hello" "h2" "q2" "core" 200
    ⟨⟨7050110444001794879, "u", "d", "t", "hello", "h1", "q", "core", 200⟩,
      by decide, by decide⟩

/-- C3 (amended): every query emitted by `generate_run_queries` has text
absent from the cooldown log — the run-level guarantee the generator does
enforce.  (It does not deduplicate within the run; see the
counterexample.) -/
theorem claim_C3_no_cooldown_text_amended :
    ∀ (kw : KeywordsConfig) (recent : List String)
      (performance : List (String × Perf)) (crng : CoreRng) (drng : DiscRng)
      (q : Query),
      q ∈ generate_run_queries kw recent performance crng drng →
      q.query ∉ recent := by
  intro kw recent performance crng drng q hq
  rw [generate_run_queries] at hq
  have hfiltered : ∀ (l : List Query),
      q ∈ l.filter (fun x => decide (x.query ∉ recent)) → q.query ∉ recent := by
    intro l hl
    exact of_decide_eq_true (List.mem_filter.mp hl).2
  have hfin : q ∈
      (build_core_queries kw.pain_signals kw.ai_awareness kw.business_context
        kw.specific_tasks ((kw.core_ratio * kw.queries_per_run).floor.toNat * 3)
        crng).filter (fun x => decide (x.query ∉ recent)) ++
      (build_discovery_queries kw.from_signals kw.adjacent_terms
        kw.business_context
        ((kw.queries_per_run - (kw.core_ratio * kw.queries_per_run).floor.toNat) * 3)
        performance drng).filter (fun x => decide (x.query ∉ recent)) →
      q.query ∉ recent := by
    intro hl
    rcases List.mem_append.mp hl with h | h
    · exact hfiltered _ h
    · exact hfiltered _ h
  have htake2 : ∀ (c d : List Query) (n m : Nat),
      q ∈ ((c.filter fun x => decide (x.query ∉ recent)).take n ++
        (d.filter fun x => decide (x.query ∉ recent)).take m) →
      q.query ∉ recent := by
    intro c d n m h
    rcases List.mem_append.mp h with h | h
    · exact hfiltered _ (List.mem_of_mem_take h)
    · exact hfiltered _ (List.mem_of_mem_take h)
  have hq2 := List.mem_of_mem_take hq
  split at hq2
  · rcases List.mem_append.mp hq2 with h | h
    · exact htake2 _ _ _ _ h
    · have h2 := (List.mem_filter.mp (List.mem_of_mem_take h)).1
      exact hfin h2
  · exact htake2 _ _ _ _ hq2

/-- C3 counterexample: with one unused discovery keyword (weight 1.5,
four pool copies), an identity shuffle, an empty cooldown log and a
4-query run at ratio 0.5, the final list repeats the texts
"kw b Sverige" and "kw företag". -/
theorem claim_C3_counterexample :
    ((generate_run_queries ⟨[], [], ["b"], [], ["kw"], [], 4, 1/2⟩ []
        [("kw", ⟨0, 0⟩)]
        ⟨fun _ => [], fun _ _ => "general_swedish", fun _ _ => "general_swedish",
          fun _ => [], id⟩
        ⟨fun _ => 0, id⟩).map fun q => q.query) =
      ["kw b Sverige", "kw b Sverige", "kw företag", "kw företag"] ∧
    ¬((generate_run_queries ⟨[], [], ["b"], [], ["kw"], [], 4, 1/2⟩ []
        [("kw", ⟨0, 0⟩)]
        ⟨fun _ => [], fun _ _ => "general_swedish", fun _ _ => "general_swedish",
          fun _ => [], id⟩
        ⟨fun _ => 0, id⟩).map fun q => q.query).Nodup := by
  constructor
  · with_unfolding_all decide
  · with_unfolding_all decide

/-- C3 witness: a query of a concrete run applied to the amended theorem —
its text is not in the cooldown log. -/
theorem claim_C3_no_cooldown_text_amended_witness :
    ("kw b Sverige" : String) ∉ (["gammal fråga"] : List String) :=
  claim_C3_no_cooldown_text_amended ⟨[], [], ["b"], [], ["kw"], [], 4, 1/2⟩
    ["gammal fråga"] [("kw", ⟨0, 0⟩)]
    ⟨fun _ => [], fun _ _ => "general_swedish", fun _ _ => "general_swedish",
      fun _ => [], id⟩
    ⟨fun _ => 0, id⟩
    ⟨"kw b Sverige", "discovery", "general_swedish", none, ["kw", "b"]⟩
    (by with_unfolding_all decide)

/-- Replication keeps every keyword in the pool (each gets at least one
copy, because of the `max(1, ·)`). -/
theorem mem_weightedPool (performance : List (String × Perf)) :
    ∀ (l : List String) (x : String),
      x ∈ weightedPool l performance ↔ x ∈ l := by
  intro l
  induction l with
  | nil => intro x; simp [weightedPool]
  | cons a rest ih =>
    intro x
    simp only [weightedPool, List.map_cons, List.flatten_cons, List.mem_append,
      List.mem_cons, List.mem_replicate]
    rw [show ((rest.map fun kw =>
        List.replicate (replicationCount (kwWeight performance kw)) kw).flatten)
      = weightedPool rest performance from rfl, ih]
    constructor
    · rintro (⟨-, rfl⟩ | h)
      · exact Or.inl rfl
      · exact Or.inr h
    · rintro (rfl | h)
      · exact Or.inl ⟨by simp [replicationCount], rfl⟩
      · exact Or.inr h

/-- A keyword occurring once among the discovery terms occurs exactly
`replicationCount` times in the weighted pool. -/
theorem count_weightedPool (performance : List (String × Perf)) :
    ∀ (l : List String) (kw : String), l.count kw = 1 →
      (weightedPool l performance).count kw =
        replicationCount (kwWeight performance kw) := by
  intro l
  induction l with
  | nil => intro kw h; simp at h
  | cons a rest ih =>
    intro kw h
    have hwp : weightedPool (a :: rest) performance =
        List.replicate (replicationCount (kwWeight performance a)) a ++
          weightedPool rest performance := by
      simp [weightedPool]
    rw [hwp, List.count_append]
    by_cases hak : a = kw
    · subst hak
      have hrest : rest.count a = 0 := by
        rw [List.count_cons_self] at h
        omega
      have hnot : a ∉ weightedPool rest performance := by
        rw [mem_weightedPool]
        exact List.count_eq_zero.mp hrest
      rw [List.count_eq_zero.mpr hnot, List.count_replicate]
      simp
    · have hrest : rest.count kw = 1 := by
        rwa [List.count_cons_of_ne (fun hk => hak hk.symm)] at h
      rw [ih kw hrest, List.count_replicate]
      simp [hak, Ne.symm hak]

/-- C4 (amended): the discovery weights are 1.5 for an unused keyword,
`1 + hit_rate` for a positive hit rate and 0.3 otherwise, but the
implementation is replicate-then-draw, not a proper weighted draw: each
keyword is placed in the candidate pool `max(1, int(3·weight))` times
(every keyword keeps at least one copy), so selection is uniform over this
pool and only approximately proportional to the weight. -/
theorem claim_C4_discovery_weights_amended :
    (∀ (performance : List (String × Perf)) (kw : String),
      (perfLookup performance kw = none → kwWeight performance kw = 3/2) ∧
      (∀ p : Perf, perfLookup performance kw = some p →
        (p.times_used = 0 → kwWeight performance kw = 3/2) ∧
        (p.times_used ≠ 0 → p.hit_rate > 0 →
          kwWeight performance kw = 1 + p.hit_rate) ∧
        (p.times_used ≠ 0 → ¬(p.hit_rate > 0) →
          kwWeight performance kw = 3/10))) ∧
    (∀ (performance : List (String × Perf)) (l : List String) (kw : String),
      l.count kw = 1 →
      (weightedPool l performance).count kw =
        max 1 (Int.toNat ⌊kwWeight performance kw * 3⌋)) ∧
    (∀ (performance : List (String × Perf)) (l : List String) (x : String),
      x ∈ weightedPool l performance ↔ x ∈ l) := by
  refine ⟨?_, ?_, fun performance => mem_weightedPool performance⟩
  · intro performance kw
    constructor
    · intro h
      rw [kwWeight, h]
    · intro p hp
      refine ⟨?_, ?_, ?_⟩
      · intro h0
        rw [kwWeight, hp]
        simp [h0]
      · intro h0 hpos
        rw [kwWeight, hp]
        simp only [if_neg h0, if_pos hpos]
      · intro h0 hpos
        rw [kwWeight, hp]
        simp only [if_neg h0, if_neg hpos]
  · intro performance l kw h
    exact count_weightedPool performance l kw h

/-- C4 counterexample: with one unused keyword (weight 1.5) and one
used-but-unsuccessful keyword (weight 0.3) the pool holds 4 copies
against 1 — the claimed proportionality to the weights would need 5
against 1, and the pool is literal replication, not a weighted draw. -/
theorem claim_C4_counterexample :
    weightedPool ["a", "b"] [("b", ⟨5, 0⟩)] = ["a", "a", "a", "a", "b"] ∧
    kwWeight [("b", ⟨5, 0⟩)] "a" = 3/2 ∧
    kwWeight [("b", ⟨5, 0⟩)] "b" = 3/10 ∧
    ¬((4 : ℚ) * (3/10) = (1 : ℚ) * (3/2)) := by
  refine ⟨?_, ?_, ?_, by norm_num⟩
  · with_unfolding_all decide
  · with_unfolding_all decide
  · with_unfolding_all decide

/-- C4 witness: the three weight cases and the replication count at
concrete performance rows. -/
theorem claim_C4_discovery_weights_amended_witness :
    kwWeight [] "x" = 3/2 ∧
    kwWeight [("y", ⟨3, 1/5⟩)] "y" = 1 + 1/5 ∧
    kwWeight [("z", ⟨4, 0⟩)] "z" = 3/10 ∧
    (weightedPool ["a", "b"] [("b", ⟨5, 0⟩)]).count "a" = 4 := by
  refine ⟨(claim_C4_discovery_weights_amended.1 [] "x").1 rfl,
    ((claim_C4_discovery_weights_amended.1 [("y", ⟨3, 1/5⟩)] "y").2 ⟨3, 1/5⟩
      rfl).2.1 (by decide) (by norm_num),
    ((claim_C4_discovery_weights_amended.1 [("z", ⟨4, 0⟩)] "z").2 ⟨4, 0⟩
      rfl).2.2 (by decide) (by norm_num),
    (claim_C4_discovery_weights_amended.2.1 [("b", ⟨5, 0⟩)] ["a", "b"] "a"
      (by decide)).trans (by with_unfolding_all decide)⟩

/-- C6 witness: three uses with two successes store hit rate exactly 2/3;
one further unsuccessful use stores exactly 2/4 = 1/2. -/
theorem claim_C6_hit_rate_invariant_witness :
    (runKeywordUpdates [true, false, true]).hit_rate = 2/3 ∧
    (runKeywordUpdates [true, false, true, false]).hit_rate = 1/2 := by
  constructor
  · have h := (claim_C6_hit_rate_invariant.2.1 [true, false, true]).2.2 (by decide)
    rw [h]
    norm_num
  · have h := claim_C6_hit_rate_invariant.2.2 [true, false, true]
    norm_num at h
    exact h
